import Mathlib

/-!
Verification development for the ichnaea batch ingestion pipeline
(`ichnaea/data/internal.py`): schema normalization (`InternalTransform`),
per-report validation and intra-batch deduplication (`process_report`),
station-novelty counting (`new_stations`), sharded fan-out enqueueing
(`process_reports`, `process_datamap`, `process_score`), statistics
emission (`emit_stats`) and user resolution (`process_user`).

Python dictionaries are embedded as insertion-ordered association lists,
raw field values as `Int`, and the external persistence layer (SQLAlchemy
session) as explicit list-valued state.  External capabilities that live in
`ichnaea.models` (validators, the `better` comparator, shard functions) are
modelled from the spec, as noted on each definition.
-/

set_option autoImplicit false

namespace Ichnaea

/-- Lookup in an insertion-ordered association list (Python `dict.get`). -/
def dget {κ α : Type} [DecidableEq κ] : List (κ × α) → κ → Option α
  | [], _ => none
  | (k', v) :: rest, k => if k' = k then some v else dget rest k

/-- Store into an insertion-ordered association list (Python `d[k] = v`):
an existing key keeps its position and gets the new value, a new key is
appended at the end. -/
def dset {κ α : Type} [DecidableEq κ] : List (κ × α) → κ → α → List (κ × α)
  | [], k, v => [(k, v)]
  | (k', v') :: rest, k, v =>
    if k' = k then (k', v) :: rest else (k', v') :: dset rest k v

/-- Add to a Python `set` modelled as a duplicate-free list (first-insertion
order). -/
def setInsert {α : Type} [DecidableEq α] (l : List α) (a : α) : List α :=
  if a ∈ l then l else l ++ [a]

/-! ## Schema Mapper (`InternalTransform`) -/

/-- `InternalTransform.position_map`: source field → canonical field. -/
def position_map : List (String × String) :=
  [("latitude", "lat"), ("longitude", "lon"), ("accuracy", "accuracy"),
   ("altitude", "altitude"), ("altitudeAccuracy", "altitude_accuracy"),
   ("age", "age"), ("heading", "heading"), ("pressure", "pressure"),
   ("speed", "speed"), ("source", "source")]

/-- `InternalTransform.blue_map`. -/
def blue_map : List (String × String) :=
  [("macAddress", "key"), ("age", "age"), ("signalStrength", "signal")]

/-- `InternalTransform.cell_map`. -/
def cell_map : List (String × String) :=
  [("radioType", "radio"), ("mobileCountryCode", "mcc"),
   ("mobileNetworkCode", "mnc"), ("locationAreaCode", "lac"),
   ("cellId", "cid"), ("age", "age"), ("asu", "asu"),
   ("primaryScramblingCode", "psc"), ("serving", "serving"),
   ("signalStrength", "signal"), ("timingAdvance", "ta")]

/-- `InternalTransform.wifi_map`. -/
def wifi_map : List (String × String) :=
  [("macAddress", "key"), ("radioType", "radio"), ("age", "age"),
   ("channel", "channel"), ("frequency", "frequency"),
   ("signalToNoiseRatio", "signalToNoiseRatio"),
   ("signalStrength", "signal")]

/-- One submitted raw item (`item['report']` in the upload payload).
Scalar field values are embedded as `Int`; a technology list that is absent
in the JSON behaves like the empty list (the source reads it with
`item.get(key, ())`), so absent lists are embedded as `[]`. -/
structure RawItem where
  position : Option (List (String × Int))
  timestamp : Option Int
  bluetoothBeacons : List (List (String × Int))
  cellTowers : List (List (String × Int))
  wifiAccessPoints : List (List (String × Int))
deriving DecidableEq

/-- `InternalTransform._map_dict`: copy each mapped source field that is
present (non-null) under its canonical name. -/
def map_dict (item_source : List (String × Int))
    (field_map : List (String × String)) : List (String × Int) :=
  field_map.foldl
    (fun value spec =>
      match dget item_source spec.1 with
      | some v => dset value spec.2 v
      | none => value)
    []

/-- The canonical report produced by `InternalTransform.__call__`:
root scalar fields, the raw `timestamp` (present only when truthy), and the
three per-technology entry lists. -/
structure CanonReport where
  fields : List (String × Int)
  timestamp : Option Int
  blue : List (List (String × Int))
  cell : List (List (String × Int))
  wifi : List (List (String × Int))
deriving DecidableEq

/-- `InternalTransform.__call__`.  The position block is read from the
nested `position` sub-dict (`position_id = ('position', None)`) and merged
into the report root; `timestamp` is carried only when truthy (Python
`if timestamp:`, so the value `0` is dropped); each technology entry that
maps to zero fields is dropped; the result is `{}` (here `none`) unless at
least one technology list kept at least one entry. -/
def transform (item : RawItem) : Option CanonReport :=
  let posFields :=
    match item.position with
    | none => []
    | some src => if src = [] then [] else map_dict src position_map
  let ts :=
    match item.timestamp with
    | some t => if t = 0 then none else some t
    | none => none
  let blues := (item.bluetoothBeacons.map (fun e => map_dict e blue_map)).filter
    (fun v => v ≠ [])
  let cells := (item.cellTowers.map (fun e => map_dict e cell_map)).filter
    (fun v => v ≠ [])
  let wifis := (item.wifiAccessPoints.map (fun e => map_dict e wifi_map)).filter
    (fun v => v ≠ [])
  if blues ≠ [] ∨ cells ≠ [] ∨ wifis ≠ [] then
    some ⟨posFields, ts, blues, cells, wifis⟩
  else
    none

/-- The report shape handed to `process_reports`: like `CanonReport` but
with the raw `timestamp` replaced by the converted `time`. -/
structure FormattedReport where
  fields : List (String × Int)
  time : Option Int
  blue : List (List (String × Int))
  cell : List (List (String × Int))
  wifi : List (List (String × Int))
deriving DecidableEq

/-- `datetime.utcfromtimestamp(timestamp / 1000.0).replace(microsecond=0)`,
embedded as whole seconds since the epoch. -/
def millisToSeconds (t : Int) : Int := t / 1000

/-- `InternalUploader._format_report`: run the transform, pop `timestamp`,
and (only when it is truthy) convert it to an absolute UTC time truncated
to whole seconds.  An empty transform result (`{}`) stays empty. -/
def format_report (item : RawItem) : Option FormattedReport :=
  match transform item with
  | none => none
  | some rep =>
    let time :=
      match rep.timestamp with
      | some t => if t = 0 then none else some (millisToSeconds t)
      | none => none
    some ⟨rep.fields, time, rep.blue, rep.cell, rep.wifi⟩

/-! ## Observations and intra-report deduplication (`process_report`) -/

/-- Modelled from the spec: the validated generic report produced by
`Report.create` (`ichnaea.models`, not under `src/`).  Only the position is
retained, since it is all the pipeline reads back (`report['lat']`,
`report['lon']`). -/
structure Report where
  lat : Int
  lon : Int
deriving DecidableEq

/-- Modelled from the spec: `Report.create(**data)` "returns a validated
typed report or signals malformed (e.g., missing/invalid position)".
Embedded as requiring the canonical `lat` and `lon` fields to be present. -/
def Report.create (r : FormattedReport) : Option Report :=
  match dget r.fields "lat", dget r.fields "lon" with
  | some la, some lo => some ⟨la, lo⟩
  | _, _ => none

/-- Modelled from the spec: the validated technology-specific report
produced by `BlueReport.create` / `CellReport.create` / `WifiReport.create`
(`ichnaea.models`, not under `src/`), abstracted to the identifying fields
that determine the unique station key (MAC address for Blue/Wifi, the
composite radio/mcc/mnc/lac/cid for Cell) and the informativeness measure
consumed by the `better` comparator. -/
structure BeaconReport where
  key : Int
  info : Int
deriving DecidableEq

/-- Modelled from the spec: the canonical Observation — position fields
inherited from the generic report plus the technology fields, with its
unique station key. -/
structure Observation where
  lat : Int
  lon : Int
  key : Int
  info : Int
deriving DecidableEq

/-- Modelled from the spec: `obs_cls.combine(report, item_report)`
(`ichnaea.models`, not under `src/`) merges generic and specific report
data into one Observation; the unique key derives from the item's
identifying fields. -/
def combine (rep : Report) (br : BeaconReport) : Observation :=
  ⟨rep.lat, rep.lon, br.key, br.info⟩

/-- Modelled from the spec: the `better` comparator (`ichnaea.models`, not
under `src/`): "an existing observation is considered at least as good
unless the new one strictly improves informativeness; ties favor the
existing entry".  `a.better b` is true iff `b` does not strictly improve on
`a`. -/
def Observation.better (a b : Observation) : Bool :=
  b.info ≤ a.info

/-- The deduplication step of `process_report` (lines 329–335): look up the
unique key in the per-technology dict; when the stored observation is
`better` than the new one the new one is ignored (`continue`), otherwise
the new observation is stored under its key. -/
def dedupInsert (m : List (Int × Observation)) (obs : Observation) :
    List (Int × Observation) :=
  match dget m obs.key with
  | some existing => if existing.better obs then m else dset m obs.key obs
  | none => dset m obs.key obs

/-- The per-technology loop of `process_report` (lines 317–335):
validate each entry (a failed validation increments the technology's
malformed count and skips the entry), combine the surviving entries with
the generic report, and deduplicate by unique key.  The per-technology
validator (`report_cls.create`) is passed in as `create`. -/
def processItems (create : List (String × Int) → Option BeaconReport)
    (rep : Report) (entries : List (List (String × Int))) :
    List (Int × Observation) × Nat :=
  entries.foldl
    (fun acc e =>
      match create e with
      | none => (acc.1, acc.2 + 1)
      | some br => (dedupInsert acc.1 (combine rep br), acc.2))
    ([], 0)

/-- Per-technology counters (`{'blue': …, 'cell': …, 'wifi': …}`). -/
structure TechCounts where
  blue : Nat
  cell : Nat
  wifi : Nat
deriving DecidableEq

/-- The external capabilities `InternalUploader` consumes, all living in
`ichnaea.models` and therefore modelled from the spec: per-technology
validators, deterministic shard functions (used both for storage routing
and existence queries), the set of station keys already known to storage,
and the heatmap quantization/sharding functions. -/
structure Env where
  blueCreate : List (String × Int) → Option BeaconReport
  cellCreate : List (String × Int) → Option BeaconReport
  wifiCreate : List (String × Int) → Option BeaconReport
  shardBlue : Int → Nat
  shardCell : Int → Nat
  shardWifi : Int → Nat
  knownBlue : List Int
  knownCell : List Int
  knownWifi : List Int
  scale : Int × Int → Int × Int
  datamapShard : Int × Int → Nat

/-- `InternalUploader.process_report`: validate the generic report (failure
returns `(None, None, None, zero-malformed)`), then run the per-technology
validation/deduplication loop, returning the surviving observations
(`dict.values()`, i.e. the stored values in insertion order) and the
per-technology malformed counts. -/
def process_report (env : Env) (r : FormattedReport) :
    Option (List Observation × List Observation × List Observation) ×
      TechCounts :=
  match Report.create r with
  | none => (none, ⟨0, 0, 0⟩)
  | some rep =>
    let b := processItems env.blueCreate rep r.blue
    let c := processItems env.cellCreate rep r.cell
    let w := processItems env.wifiCreate rep r.wifi
    (some (b.1.map Prod.snd, c.1.map Prod.snd, w.1.map Prod.snd),
      ⟨b.2, c.2, w.2⟩)

/-! ## Novelty detection (`new_stations`) -/

/-- One step of the per-shard existence-query loop of `new_stations`
(lines 216–220): the batched query for shard `sid` returns the keys of
that shard that exist in storage (`known`), and they are removed from the
unknown set; the second component counts issued queries. -/
def nsStep (known : List Int) (shard : Int → Nat) (U : List Int)
    (acc : List Int × Nat) (sid : Nat) : List Int × Nat :=
  let keys := U.filter (fun k => shard k = sid)
  let found := keys.filter (fun k => k ∈ known)
  (acc.1.filter (fun k => k ∉ found), acc.2 + 1)

/-- `InternalUploader.new_stations`: return `0` immediately on an empty key
set (no query); otherwise assume all distinct keys unknown, partition them
by shard, issue one batched existence query per shard and subtract every
known key, returning the count of remaining unknown keys.  The source
dispatches on the technology name to pick the shard model and key column;
here the already-selected `known` set and `shard` function are passed in.
The second component is the number of existence queries issued. -/
def new_stations (known : List Int) (shard : Int → Nat)
    (station_keys : List Int) : Nat × Nat :=
  if station_keys.length = 0 then (0, 0)
  else
    let U := station_keys.dedup
    let sids := (U.map shard).dedup
    let r := sids.foldl (nsStep known shard U) (U, 0)
    (r.1.length, r.2)

/-! ## Stats emission (`emit_stats`) -/

/-- A metric tag.  The source renders tags as strings
(`'reason:malformed'`, `'type:%s' % name`, `'key:%s' % api_key.valid_key`);
they are embedded structurally, with `Tag.render` giving the source's
string form. -/
inductive Tag where
  | reasonMalformed : Tag
  | type (name : String) : Tag
  | key (valid_key : String) : Tag
deriving DecidableEq

/-- The string the source writes for each tag. -/
def Tag.render : Tag → String
  | .reasonMalformed => "reason:malformed"
  | .type name => "type:" ++ name
  | .key k => "key:" ++ k

/-- One emitted counter (`stats_client.incr(name, value, tags=…)`). -/
structure Metric where
  name : String
  value : Nat
  tags : List Tag
deriving DecidableEq

/-- An API key as consumed by `emit_stats`: its `valid_key` and the result
of `should_log('submit')` (an `ichnaea.models.ApiKey` capability, not under
`src/`, modelled from the spec as an opt-in flag). -/
structure ApiKey where
  valid_key : String
  log_submit : Bool
deriving DecidableEq

/-- The `api_tag` computed at the top of `emit_stats` (lines 171–173). -/
def apiTag (api_key : Option ApiKey) : List Tag :=
  match api_key with
  | some k => if k.log_submit then [Tag.key k.valid_key] else []
  | none => []

/-- Per-technology `{'upload': …, 'drop': …}` observation counters. -/
structure ObsCounts where
  blue_upload : Nat
  blue_drop : Nat
  cell_upload : Nat
  cell_drop : Nat
  wifi_upload : Nat
  wifi_drop : Nat
deriving DecidableEq

/-- The body of the per-technology/per-action loop of `emit_stats`
(lines 184–193): emit `data.observation.<action>` tagged `type:<name>`
(plus `reason:malformed` for drops) when the count is positive. -/
def obsMetrics (name : String) (action : String) (count : Nat)
    (tag : List Tag) : List Metric :=
  if 0 < count then
    [⟨"data.observation." ++ action, count,
      ([Tag.type name] ++ (if action = "drop" then [Tag.reasonMalformed] else []))
        ++ tag⟩]
  else []

/-- `InternalUploader.emit_stats`: the accepted-report counter (when
positive), the malformed-report counter tagged `reason:malformed` (when
positive), and one tagged counter per technology/action with a positive
count; every counter carries the api tag.  The iteration order is the
dict insertion order: blue, cell, wifi, each upload then drop. -/
def emit_stats (reports malformed : Nat) (oc : ObsCounts)
    (api_key : Option ApiKey) : List Metric :=
  let tag := apiTag api_key
  (if 0 < reports then [⟨"data.report.upload", reports, tag⟩] else [])
  ++ (if 0 < malformed then
        [⟨"data.report.drop", malformed, Tag.reasonMalformed :: tag⟩]
      else [])
  ++ obsMetrics "blue" "upload" oc.blue_upload tag
  ++ obsMetrics "blue" "drop" oc.blue_drop tag
  ++ obsMetrics "cell" "upload" oc.cell_upload tag
  ++ obsMetrics "cell" "drop" oc.cell_drop tag
  ++ obsMetrics "wifi" "upload" oc.wifi_upload tag
  ++ obsMetrics "wifi" "drop" oc.wifi_drop tag

/-! ## Scores (`process_score`) -/

/-- `ichnaea.models.ScoreKey` as used here: `location`, `new_cell`,
`new_wifi` (there is no score key for bluetooth novelty). -/
inductive ScoreKey where
  | location : ScoreKey
  | new_cell : ScoreKey
  | new_wifi : ScoreKey
deriving DecidableEq

/-- One score delta `{'hashkey': Score.to_hashkey(userid, key, time=None),
'value': …}`. -/
structure ScoreDelta where
  userid : Nat
  key : ScoreKey
  value : Nat
deriving DecidableEq

/-- `InternalUploader.process_score`: nothing is enqueued (`none`) when no
user id was resolved or no position was contributed; otherwise the batch's
delta list is one location delta valued at the number of distinct
positions, then one `new_cell` and one `new_wifi` delta, each only when
the corresponding new-station count is positive. -/
def process_score (userid : Option Nat) (positions : List (Int × Int))
    (nsc : TechCounts) : Option (List ScoreDelta) :=
  match userid with
  | none => none
  | some uid =>
    if positions.length = 0 then none
    else
      some ([⟨uid, ScoreKey.location, positions.length⟩]
        ++ (if 0 < nsc.cell then [⟨uid, ScoreKey.new_cell, nsc.cell⟩] else [])
        ++ (if 0 < nsc.wifi then [⟨uid, ScoreKey.new_wifi, nsc.wifi⟩] else []))

/-! ## Sharding and fan-out (`process_reports`, `process_datamap`) -/

/-- The destination queues: `update_<technology>_<shard>` per observation
shard, `update_datamap_<shard>` per heatmap shard, and the single
`update_score` queue.  `QueueId.name` gives the source's queue-name
string. -/
inductive QueueId where
  | blue (shard : Nat) : QueueId
  | cell (shard : Nat) : QueueId
  | wifi (shard : Nat) : QueueId
  | datamap (shard : Nat) : QueueId
  | score : QueueId
deriving DecidableEq

/-- The queue-name string the source uses to select each queue. -/
def QueueId.name : QueueId → String
  | .blue s => "update_blue_" ++ toString s
  | .cell s => "update_cell_" ++ toString s
  | .wifi s => "update_wifi_" ++ toString s
  | .datamap s => "update_datamap_" ++ toString s
  | .score => "update_score"

/-- The payload of one enqueue call, abstracted to what the claims
consume: observation batches and heatmap-grid batches by size, the score
batch by its delta list. -/
inductive Payload where
  | obsBatch (count : Nat) : Payload
  | grids (count : Nat) : Payload
  | scores (deltas : List ScoreDelta) : Payload
deriving DecidableEq

/-- One `queue.enqueue(…)` call: the destination queue, the payload,
whether the values are JSON-wrapped, and whether the call was issued
against the shared buffered pipe (`pipe=self.pipe`). -/
structure EnqueueOp where
  queue : QueueId
  payload : Payload
  json : Bool
  viaPipe : Bool
deriving DecidableEq

/-- Count occurrences grouped by first appearance (the
`defaultdict(list)` sharded-observation grouping, by group size). -/
def bump : List (Nat × Nat) → Nat → List (Nat × Nat)
  | [], s => [(s, 1)]
  | (k, n) :: rest, s =>
    if k = s then (k, n + 1) :: rest else (k, n) :: bump rest s

/-- Group sizes of a list of shard ids, in first-appearance order. -/
def groupCounts (l : List Nat) : List (Nat × Nat) :=
  l.foldl bump []

/-- The per-technology dispatch blocks of `process_reports`
(lines 264–292): when there are observations, group them by the shard id of
their unique key and enqueue one serialized batch per shard on the pipe. -/
def shardOps (mk : Nat → QueueId) (shard : Int → Nat)
    (obs : List Observation) : List EnqueueOp :=
  if obs = [] then []
  else
    (groupCounts (obs.map (fun o => shard o.key))).map
      (fun sc => ⟨mk sc.1, Payload.obsBatch sc.2, true, true⟩)

/-- Append a value to the set stored under a key in an insertion-ordered
multimap (the `defaultdict(set)` of `process_datamap`). -/
def multiInsert {κ α : Type} [DecidableEq κ] [DecidableEq α] :
    List (κ × List α) → κ → α → List (κ × List α)
  | [], k, v => [(k, [v])]
  | (k', vs) :: rest, k, v =>
    if k' = k then (k', setInsert vs v) :: rest
    else (k', vs) :: multiInsert rest k v

/-- `InternalUploader.process_datamap`: nothing on an empty position set;
otherwise quantize each position into a grid cell (`DataMap.scale`,
modelled by `env.scale`; the source's not-None guard on lat/lon is always
true here since positions are total values), deduplicate the cells, group
the encoded cells by the heatmap shard function and enqueue one raw
(non-JSON) batch per shard on the pipe.  `encode_datamap_grid` is
injective, so batch sizes are the grid-set sizes. -/
def process_datamap (env : Env) (positions : List (Int × Int)) :
    List EnqueueOp :=
  if positions = [] then []
  else
    let grids := positions.foldl (fun acc p => setInsert acc (env.scale p)) []
    let shards := grids.foldl
      (fun acc g => multiInsert acc (env.datamapShard g) g) []
    shards.map (fun sv => ⟨QueueId.datamap sv.1, Payload.grids sv.2.length,
      false, true⟩)

/-- The single score enqueue of `process_score` (line 386):
`queue.enqueue(scores)` — issued WITHOUT `pipe=self.pipe`, unlike every
other enqueue in the pipeline. -/
def scoreOps : Option (List ScoreDelta) → List EnqueueOp
  | none => []
  | some scores => [⟨QueueId.score, Payload.scores scores, true, false⟩]

/-- The per-report accumulation state of `process_reports`
(lines 225–251): malformed-report count, the set of accepted positions,
the per-technology observation lists and the per-technology
upload/drop counters. -/
structure BatchState where
  malformed : Nat
  positions : List (Int × Int)
  blueObs : List Observation
  cellObs : List Observation
  wifiObs : List Observation
  counts : ObsCounts
deriving DecidableEq

/-- The initial accumulation state. -/
def initBatch : BatchState := ⟨0, [], [], [], [], ⟨0, 0, 0, 0, 0, 0⟩⟩

/-- The body of the per-report loop of `process_reports` (lines 235–251):
extend the per-technology observation lists and upload counts, record the
report's position when any technology yielded observations and otherwise
count the report as malformed, and add the per-technology malformed-entry
counts to the drop counters. -/
def processOne (env : Env) (st : BatchState) (r : FormattedReport) :
    BatchState :=
  match process_report env r with
  | (none, mal) =>
    { st with
      malformed := st.malformed + 1,
      counts := { st.counts with
        blue_drop := st.counts.blue_drop + mal.blue,
        cell_drop := st.counts.cell_drop + mal.cell,
        wifi_drop := st.counts.wifi_drop + mal.wifi } }
  | (some (b, c, w), mal) =>
    let st1 := { st with
      blueObs := st.blueObs ++ b,
      cellObs := st.cellObs ++ c,
      wifiObs := st.wifiObs ++ w,
      counts := { st.counts with
        blue_upload := st.counts.blue_upload + b.length,
        cell_upload := st.counts.cell_upload + c.length,
        wifi_upload := st.counts.wifi_upload + w.length } }
    let st2 :=
      if b ≠ [] ∨ c ≠ [] ∨ w ≠ [] then
        { st1 with positions :=
            match dget r.fields "lat", dget r.fields "lon" with
            | some la, some lo => setInsert st1.positions (la, lo)
            | _, _ => st1.positions }
      else
        { st1 with malformed := st1.malformed + 1 }
    { st2 with counts := { st2.counts with
        blue_drop := st2.counts.blue_drop + mal.blue,
        cell_drop := st2.counts.cell_drop + mal.cell,
        wifi_drop := st2.counts.wifi_drop + mal.wifi } }

/-- The batch state after the per-report loop of `process_reports`. -/
def batchState (env : Env) (reports : List FormattedReport) : BatchState :=
  reports.foldl (processOne env) initBatch

/-- The per-technology new-station counts of `process_reports`
(lines 253–262): the distinct unique keys of each technology's surviving
observations, counted by `new_stations`. -/
def newStationCounts (env : Env) (st : BatchState) : TechCounts :=
  ⟨(new_stations env.knownBlue env.shardBlue
      (st.blueObs.map Observation.key)).1,
   (new_stations env.knownCell env.shardCell
      (st.cellObs.map Observation.key)).1,
   (new_stations env.knownWifi env.shardWifi
      (st.wifiObs.map Observation.key)).1⟩

/-- `InternalUploader.process_reports`: run the per-report loop, count
new stations, enqueue the sharded observation batches (blue, cell, wifi),
the heatmap updates and the score deltas, and emit the batch statistics. -/
def process_reports (env : Env) (reports : List FormattedReport)
    (api_key : Option ApiKey) (userid : Option Nat) :
    List EnqueueOp × List Metric :=
  let st := batchState env reports
  let nsc := newStationCounts env st
  let ops :=
    shardOps QueueId.blue env.shardBlue st.blueObs
    ++ shardOps QueueId.cell env.shardCell st.cellObs
    ++ shardOps QueueId.wifi env.shardWifi st.wifiObs
    ++ process_datamap env st.positions
    ++ scoreOps (process_score userid st.positions nsc)
  (ops, emit_stats reports.length st.malformed st.counts api_key)

/-! ## User resolution (`process_user`) and `send` -/

/-- `InternalUploader.process_user`: a truthy nickname of 2–128 characters
resolves to a user id — the first matching row's id, or a freshly assigned
id after inserting a new user row.  The `User` table is modelled as an
association list of `(id, nickname)` rows with an auto-increment `nextId`
(the session/flush machinery is external to `src/`). -/
def process_user (users : List (Nat × String)) (nextId : Nat)
    (nickname : Option String) : Option Nat × List (Nat × String) × Nat :=
  match nickname with
  | none => (none, users, nextId)
  | some s =>
    if s.length ≠ 0 ∧ 2 ≤ s.length ∧ s.length ≤ 128 then
      match users.find? (fun u => u.2 == s) with
      | none => (some nextId, users ++ [(nextId, s)], nextId + 1)
      | some u => (some u.1, users, nextId)
    else (none, users, nextId)

/-- One item of the decoded upload payload (`item` in `send`). -/
structure UploadItem where
  api_key : Option String
  nickname : Option String
  report : RawItem
deriving DecidableEq

/-- Append a report to its `(api_key, nickname)` group
(`groups[(item['api_key'], item['nickname'])].append(report)`), keeping
dict insertion order. -/
def groupAppend
    (gs : List ((Option String × Option String) × List FormattedReport))
    (k : Option String × Option String) (v : FormattedReport) :
    List ((Option String × Option String) × List FormattedReport) :=
  match gs with
  | [] => [(k, [v])]
  | (k', vs) :: rest =>
    if k' = k then (k', vs ++ [v]) :: rest
    else (k', vs) :: groupAppend rest k v

/-- The grouping pass of `send` (lines 157–161): format every item's
report and group the non-empty results by `(api_key, nickname)`;
an empty formatted report is dropped here and never processed further. -/
def sendGroups (items : List UploadItem) :
    List ((Option String × Option String) × List FormattedReport) :=
  items.foldl
    (fun gs it =>
      match format_report it.report with
      | none => gs
      | some rep => groupAppend gs (it.api_key, it.nickname) rep)
    []

/-- `InternalUploader.send`: decode and group the payload, then for each
group look up the `ApiKey` row, resolve the user and process the group's
reports; the enqueue calls and emitted metrics of all groups are
concatenated in order.  `apiTable` models the `ApiKey` table and
`users`/`nextId` the `User` table. -/
def send (env : Env) (apiTable : List (String × ApiKey))
    (users : List (Nat × String)) (nextId : Nat)
    (items : List UploadItem) : List EnqueueOp × List Metric :=
  let r := (sendGroups items).foldl
    (fun (acc : List EnqueueOp × List Metric × List (Nat × String) × Nat) g =>
      let api_key :=
        match g.1.1 with
        | some k => dget apiTable k
        | none => none
      let u := process_user acc.2.2.1 acc.2.2.2 g.1.2
      let pr := process_reports env g.2 api_key u.1
      (acc.1 ++ pr.1, acc.2.1 ++ pr.2, u.2.1, u.2.2))
    ([], [], users, nextId)
  (r.1, r.2.1)

/-! ## Concrete instances used by witnesses and counterexamples -/

/-- A concrete environment: each technology validator accepts an entry iff
its canonical `key` field is present, taking the informativeness from the
`signal` field (0 when absent); single-shard sharding; empty storage. -/
def cenv : Env where
  blueCreate e :=
    match dget e "key" with
    | some k => some ⟨k, (dget e "signal").getD 0⟩
    | none => none
  cellCreate e :=
    match dget e "cid" with
    | some k => some ⟨k, (dget e "signal").getD 0⟩
    | none => none
  wifiCreate e :=
    match dget e "key" with
    | some k => some ⟨k, (dget e "signal").getD 0⟩
    | none => none
  shardBlue _ := 0
  shardCell _ := 0
  shardWifi _ := 0
  knownBlue := []
  knownCell := []
  knownWifi := []
  scale p := p
  datamapShard _ := 0

/-- A concrete formatted report with a position and one wifi entry. -/
def wifiReport : FormattedReport :=
  ⟨[("lat", 10), ("lon", 20)], none, [], [], [[("key", 7), ("signal", 5)]]⟩

/-- A concrete raw item with a valid position and empty beacon lists. -/
def beaconlessItem : UploadItem :=
  ⟨some "k1", some "ab",
    ⟨some [("latitude", 1), ("longitude", 2)], none, [], [], []⟩⟩

/-- The number of technologies with a positive new-station count.  This
follows the words of the claim that the score step emits "one delta per
technology's new-station count … when that count is strictly positive";
it is used to compare that predicted delta count with the code's. -/
def numPositive (c : TechCounts) : Nat :=
  (if 0 < c.blue then 1 else 0) + (if 0 < c.cell then 1 else 0) +
    (if 0 < c.wifi then 1 else 0)

/-- Replace the timestamp of a raw item. -/
def RawItem.withTimestamp (item : RawItem) (t : Option Int) : RawItem :=
  { item with timestamp := t }

/-! ## Association-list lemmas -/

theorem dget_dset_self {κ α : Type} [DecidableEq κ] (m : List (κ × α))
    (k : κ) (v : α) : dget (dset m k v) k = some v := by
  induction m with
  | nil => simp [dset, dget]
  | cons p rest ih =>
    obtain ⟨k', v'⟩ := p
    by_cases hk : k' = k
    · simp [dset, dget, hk]
    · simp [dset, dget, hk, ih]

theorem dget_eq_none_iff {κ α : Type} [DecidableEq κ] (m : List (κ × α))
    (k : κ) : dget m k = none ↔ k ∉ m.map Prod.fst := by
  induction m with
  | nil => simp [dget]
  | cons p rest ih =>
    obtain ⟨k', v'⟩ := p
    by_cases hk : k' = k
    · simp [dget, hk]
    · simp [dget, hk, ih, Ne.symm hk]

theorem dget_isSome_of_mem {κ α : Type} [DecidableEq κ]
    (m : List (κ × α)) (k : κ) (hk : k ∈ m.map Prod.fst) :
    ∃ v, dget m k = some v := by
  cases h : dget m k with
  | none => exact absurd hk ((dget_eq_none_iff m k).mp h)
  | some v => exact ⟨v, rfl⟩

theorem map_fst_dset_of_mem {κ α : Type} [DecidableEq κ]
    (m : List (κ × α)) (k : κ) (v : α) (hk : k ∈ m.map Prod.fst) :
    (dset m k v).map Prod.fst = m.map Prod.fst := by
  induction m with
  | nil => simp at hk
  | cons p rest ih =>
    obtain ⟨k', v'⟩ := p
    by_cases h : k' = k
    · simp [dset, h]
    · simp only [List.map_cons, List.mem_cons] at hk
      rcases hk with hk | hk
      · exact absurd hk.symm h
      · simp [dset, h, ih hk]

theorem map_fst_dset_of_not_mem {κ α : Type} [DecidableEq κ]
    (m : List (κ × α)) (k : κ) (v : α) (hk : k ∉ m.map Prod.fst) :
    (dset m k v).map Prod.fst = m.map Prod.fst ++ [k] := by
  induction m with
  | nil => simp [dset]
  | cons p rest ih =>
    obtain ⟨k', v'⟩ := p
    simp only [List.map_cons, List.mem_cons] at hk
    push_neg at hk
    by_cases h : k' = k
    · exact absurd h.symm hk.1
    · simp [dset, h, ih hk.2]

theorem mem_dset {κ α : Type} [DecidableEq κ] (k : κ) (v : α) (p : κ × α) :
    ∀ m : List (κ × α), p ∈ dset m k v → p ∈ m ∨ p = (k, v) := by
  intro m
  induction m with
  | nil =>
    intro hp
    right
    simpa [dset] using hp
  | cons q rest ih =>
    obtain ⟨k', v'⟩ := q
    intro hp
    by_cases h : k' = k
    · simp only [dset, if_pos h] at hp
      rcases List.mem_cons.mp hp with hp | hp
      · right; rw [hp, h]
      · left; exact List.mem_cons_of_mem _ hp
    · simp only [dset, if_neg h] at hp
      rcases List.mem_cons.mp hp with hp | hp
      · left; rw [hp]; exact List.mem_cons_self _ _
      · rcases ih hp with h' | h'
        · left; exact List.mem_cons_of_mem _ h'
        · right; exact h'

/-! ## Deduplication lemmas (claims C1, C10) -/

/-- Claim C1: in the per-report deduplication, when a new observation
arrives for a key that already has a stored observation, the stored one is
kept whenever it is better or equal to the new one (in the spec's
comparator, whenever the new one does not strictly improve
informativeness — ties favor the existing entry), and it is replaced
exactly when the new observation is strictly better. -/
theorem dedup_keeps_better_or_equal (m : List (Int × Observation))
    (obs existing : Observation) (h : dget m obs.key = some existing) :
    (obs.info ≤ existing.info → dedupInsert m obs = m) ∧
    (existing.info < obs.info →
      dedupInsert m obs = dset m obs.key obs ∧
      dget (dedupInsert m obs) obs.key = some obs) := by
  constructor
  · intro hle
    simp [dedupInsert, h, Observation.better, hle]
  · intro hlt
    have hnot : ¬ obs.info ≤ existing.info := not_le.mpr hlt
    constructor
    · simp [dedupInsert, h, Observation.better, hnot]
    · simp [dedupInsert, h, Observation.better, hnot, dget_dset_self]

/-- Witness for C1: with a stored observation of informativeness 3 under
key 5, an equally informative new observation is ignored. -/
theorem dedup_keeps_better_or_equal_witness :
    dedupInsert [((5 : Int), (⟨0, 0, 5, 3⟩ : Observation))] ⟨1, 1, 5, 3⟩ =
      [((5 : Int), (⟨0, 0, 5, 3⟩ : Observation))] :=
  (dedup_keeps_better_or_equal [((5 : Int), ⟨0, 0, 5, 3⟩)] ⟨1, 1, 5, 3⟩
    ⟨0, 0, 5, 3⟩ (by decide)).1 (by decide)

/-- Counterexample to claim C10: two equally good observations (same key
5, same informativeness 3, different positions) — the stored one survives
and the new candidate does NOT overwrite it, because `existing.better(new)`
returns true on ties. -/
theorem dedup_tie_keeps_existing_cx :
    dedupInsert [((5 : Int), (⟨0, 0, 5, 3⟩ : Observation))] ⟨1, 1, 5, 3⟩ =
      [((5 : Int), (⟨0, 0, 5, 3⟩ : Observation))] ∧
    ((⟨0, 0, 5, 3⟩ : Observation) ≠ ⟨1, 1, 5, 3⟩) := by
  decide

/-- Claim C10 (amended): a stored observation survives a new candidate
with the same key exactly when `existing.better(new)` returns true, and the
new candidate overwrites it exactly when `better` returns false; since the
comparator judges an equally good candidate as not better (ties favor the
existing entry), among equally good candidates the FIRST in input order is
the survivor. -/
theorem dedup_survivor (m : List (Int × Observation))
    (obs existing : Observation) (h : dget m obs.key = some existing) :
    (existing.better obs = true → dedupInsert m obs = m) ∧
    (existing.better obs = false → dedupInsert m obs = dset m obs.key obs) ∧
    (existing.info = obs.info → dedupInsert m obs = m) := by
  refine ⟨?_, ?_, ?_⟩
  · intro hb
    simp [dedupInsert, h, hb]
  · intro hb
    simp [dedupInsert, h, hb]
  · intro he
    simp [dedupInsert, h, Observation.better, he.ge]

/-- Witness for the amended C10 at a concrete tie. -/
theorem dedup_survivor_witness :
    dedupInsert [((7 : Int), (⟨2, 2, 7, 4⟩ : Observation))] ⟨3, 3, 7, 4⟩ =
      [((7 : Int), (⟨2, 2, 7, 4⟩ : Observation))] :=
  (dedup_survivor [((7 : Int), ⟨2, 2, 7, 4⟩)] ⟨3, 3, 7, 4⟩ ⟨2, 2, 7, 4⟩
    (by decide)).2.2 (by decide)

/-! ## One observation per unique key (claim C7) -/

theorem mem_of_dget_some {κ α : Type} [DecidableEq κ] (m : List (κ × α))
    (k : κ) (v : α) (h : dget m k = some v) : k ∈ m.map Prod.fst := by
  by_contra hk
  rw [(dget_eq_none_iff m k).mpr hk] at h
  cases h

theorem dedupInsert_map_fst (m : List (Int × Observation))
    (obs : Observation) :
    (dedupInsert m obs).map Prod.fst =
      if obs.key ∈ m.map Prod.fst then m.map Prod.fst
      else m.map Prod.fst ++ [obs.key] := by
  cases h : dget m obs.key with
  | none =>
    have hk := (dget_eq_none_iff m obs.key).mp h
    simp only [dedupInsert, h]
    rw [if_neg hk]
    exact map_fst_dset_of_not_mem m obs.key obs hk
  | some existing =>
    have hk := mem_of_dget_some m obs.key existing h
    simp only [dedupInsert, h]
    rw [if_pos hk]
    by_cases hb : existing.better obs = true
    · rw [if_pos hb]
    · rw [if_neg hb]
      exact map_fst_dset_of_mem m obs.key obs hk

theorem mem_map_fst_dedupInsert (m : List (Int × Observation))
    (obs : Observation) (k : Int) :
    k ∈ (dedupInsert m obs).map Prod.fst ↔
      k ∈ m.map Prod.fst ∨ k = obs.key := by
  rw [dedupInsert_map_fst]
  by_cases h : obs.key ∈ m.map Prod.fst
  · rw [if_pos h]
    constructor
    · exact Or.inl
    · rintro (hk | rfl)
      · exact hk
      · exact h
  · rw [if_neg h]
    simp [List.mem_append]

theorem dedupInsert_nodup (m : List (Int × Observation))
    (obs : Observation) (h : (m.map Prod.fst).Nodup) :
    ((dedupInsert m obs).map Prod.fst).Nodup := by
  rw [dedupInsert_map_fst]
  by_cases hk : obs.key ∈ m.map Prod.fst
  · rwa [if_pos hk]
  · rw [if_neg hk]
    simp [List.nodup_append, h, hk]

theorem dedupInsert_pairs (m : List (Int × Observation))
    (obs : Observation) (hm : ∀ p ∈ m, p.2.key = p.1) :
    ∀ p ∈ dedupInsert m obs, p.2.key = p.1 := by
  intro p hp
  cases h : dget m obs.key with
  | none =>
    simp only [dedupInsert, h] at hp
    rcases mem_dset obs.key obs p m hp with h' | h'
    · exact hm p h'
    · rw [h']
  | some existing =>
    simp only [dedupInsert, h] at hp
    by_cases hb : existing.better obs = true
    · rw [if_pos hb] at hp
      exact hm p hp
    · rw [if_neg hb] at hp
      rcases mem_dset obs.key obs p m hp with h' | h'
      · exact hm p h'
      · rw [h']

theorem processItems_fold
    (create : List (String × Int) → Option BeaconReport) (rep : Report) :
    ∀ (entries : List (List (String × Int)))
      (m0 : List (Int × Observation)) (n0 : Nat),
      (m0.map Prod.fst).Nodup → (∀ p ∈ m0, p.2.key = p.1) →
      (((entries.foldl
          (fun acc e =>
            match create e with
            | none => (acc.1, acc.2 + 1)
            | some br => (dedupInsert acc.1 (combine rep br), acc.2))
          (m0, n0)).1.map Prod.fst).Nodup ∧
        (∀ p ∈ (entries.foldl
          (fun acc e =>
            match create e with
            | none => (acc.1, acc.2 + 1)
            | some br => (dedupInsert acc.1 (combine rep br), acc.2))
          (m0, n0)).1, p.2.key = p.1) ∧
        (∀ k, k ∈ (entries.foldl
          (fun acc e =>
            match create e with
            | none => (acc.1, acc.2 + 1)
            | some br => (dedupInsert acc.1 (combine rep br), acc.2))
          (m0, n0)).1.map Prod.fst ↔
            k ∈ m0.map Prod.fst ∨
              ∃ e ∈ entries, ∃ br, create e = some br ∧ br.key = k)) := by
  intro entries
  induction entries with
  | nil =>
    intro m0 n0 hnd hpr
    refine ⟨hnd, hpr, ?_⟩
    intro k
    simp
  | cons e rest ih =>
    intro m0 n0 hnd hpr
    rw [List.foldl_cons]
    cases hce : create e with
    | none =>
      simp only [hce]
      obtain ⟨h1, h2, h3⟩ := ih m0 (n0 + 1) hnd hpr
      refine ⟨h1, h2, ?_⟩
      intro k
      rw [h3 k]
      constructor
      · rintro (hk | ⟨e', he', br, hbr, hkey⟩)
        · exact Or.inl hk
        · exact Or.inr ⟨e', List.mem_cons_of_mem _ he', br, hbr, hkey⟩
      · rintro (hk | ⟨e', he', br, hbr, hkey⟩)
        · exact Or.inl hk
        · rcases List.mem_cons.mp he' with rfl | he'
          · rw [hce] at hbr; cases hbr
          · exact Or.inr ⟨e', he', br, hbr, hkey⟩
    | some br =>
      simp only [hce]
      obtain ⟨h1, h2, h3⟩ := ih (dedupInsert m0 (combine rep br)) n0
        (dedupInsert_nodup m0 (combine rep br) hnd)
        (dedupInsert_pairs m0 (combine rep br) hpr)
      refine ⟨h1, h2, ?_⟩
      intro k
      rw [h3 k]
      have hkey : (combine rep br).key = br.key := rfl
      rw [mem_map_fst_dedupInsert, hkey]
      constructor
      · rintro ((hk | rfl) | ⟨e', he', br', hbr', hkey'⟩)
        · exact Or.inl hk
        · exact Or.inr ⟨e, List.mem_cons_self e rest, br, hce, rfl⟩
        · exact Or.inr ⟨e', List.mem_cons_of_mem _ he', br', hbr', hkey'⟩
      · rintro (hk | ⟨e', he', br', hbr', hkey'⟩)
        · exact Or.inl (Or.inl hk)
        · rcases List.mem_cons.mp he' with rfl | he'
          · rw [hce] at hbr'
            cases hbr'
            exact Or.inl (Or.inr hkey'.symm)
          · exact Or.inr ⟨e', he', br', hbr', hkey'⟩

theorem map_snd_key_eq_map_fst (m : List (Int × Observation))
    (hm : ∀ p ∈ m, p.2.key = p.1) :
    (m.map Prod.snd).map Observation.key = m.map Prod.fst := by
  rw [List.map_map]
  exact List.map_congr_left hm

theorem processItems_spec
    (create : List (String × Int) → Option BeaconReport) (rep : Report)
    (entries : List (List (String × Int))) :
    (((processItems create rep entries).1.map Prod.snd).map
        Observation.key).Nodup ∧
      (∀ k, k ∈ ((processItems create rep entries).1.map Prod.snd).map
          Observation.key ↔
        ∃ e ∈ entries, ∃ br, create e = some br ∧ br.key = k) := by
  obtain ⟨h1, h2, h3⟩ := processItems_fold create rep entries [] 0
    (by simp) (by simp)
  rw [processItems, map_snd_key_eq_map_fst _ h2]
  refine ⟨h1, ?_⟩
  intro k
  rw [h3 k]
  simp

/-- Claim C7: for every report that passes generic validation,
`process_report` yields exactly one Observation per distinct unique key per
technology — the output keys are duplicate-free and are exactly the unique
keys of the report's valid beacon entries; in particular (final conjunct)
feeding the identical valid beacon entry twice yields a single
Observation. -/
theorem process_report_one_per_key (env : Env) (r : FormattedReport)
    (b c w : List Observation) (mal : TechCounts)
    (h : process_report env r = (some (b, c, w), mal)) :
    (((b.map Observation.key).Nodup ∧
        ∀ k, k ∈ b.map Observation.key ↔
          ∃ e ∈ r.blue, ∃ br, env.blueCreate e = some br ∧ br.key = k) ∧
      ((c.map Observation.key).Nodup ∧
        ∀ k, k ∈ c.map Observation.key ↔
          ∃ e ∈ r.cell, ∃ br, env.cellCreate e = some br ∧ br.key = k) ∧
      ((w.map Observation.key).Nodup ∧
        ∀ k, k ∈ w.map Observation.key ↔
          ∃ e ∈ r.wifi, ∃ br, env.wifiCreate e = some br ∧ br.key = k)) ∧
    (∀ (rep : Report) (e : List (String × Int)) (br : BeaconReport)
        (create : List (String × Int) → Option BeaconReport),
      create e = some br →
      processItems create rep [e, e] = ([(br.key, combine rep br)], 0)) := by
  constructor
  · cases hrc : Report.create r with
    | none =>
      simp only [process_report, hrc] at h
      exact Option.noConfusion (congrArg Prod.fst h)
    | some rep =>
      simp only [process_report, hrc, Prod.mk.injEq, Option.some.injEq] at h
      obtain ⟨⟨hb, hc, hw⟩, -⟩ := h
      subst hb
      subst hc
      subst hw
      exact ⟨processItems_spec env.blueCreate rep r.blue,
        processItems_spec env.cellCreate rep r.cell,
        processItems_spec env.wifiCreate rep r.wifi⟩
  · intro rep e br create hce
    simp [processItems, hce, dedupInsert, combine, dget, dset,
      Observation.better]

/-- Witness for C7 at a concrete report with one wifi entry. -/
theorem process_report_one_per_key_witness :
    (([⟨10, 20, 7, 5⟩] : List Observation).map Observation.key).Nodup :=
  (process_report_one_per_key cenv wifiReport [] [] [⟨10, 20, 7, 5⟩]
    ⟨0, 0, 0⟩ (by decide)).1.2.2.1

/-! ## Novelty-count bounds (claim C4) -/

theorem nsFold_length_le (known : List Int) (shard : Int → Nat)
    (U : List Int) :
    ∀ (sids : List Nat) (acc : List Int) (n : Nat),
      ((sids.foldl (nsStep known shard U) (acc, n)).1).length ≤ acc.length := by
  intro sids
  induction sids with
  | nil => intro acc n; exact le_refl _
  | cons sid rest ih =>
    intro acc n
    rw [List.foldl_cons]
    simp only [nsStep]
    exact le_trans (ih _ _) (List.length_filter_le _ _)

theorem nsFold_all_known (known : List Int) (shard : Int → Nat)
    (U : List Int) :
    ∀ (sids : List Nat) (acc : List Int) (n : Nat),
      (∀ k ∈ acc, k ∈ U ∧ k ∈ known ∧ shard k ∈ sids) →
      (sids.foldl (nsStep known shard U) (acc, n)).1 = [] := by
  intro sids
  induction sids with
  | nil =>
    intro acc n hacc
    cases acc with
    | nil => rfl
    | cons a rest =>
      exact absurd (hacc a (List.mem_cons_self a rest)).2.2
        (List.not_mem_nil _)
  | cons sid rest ih =>
    intro acc n hacc
    rw [List.foldl_cons]
    simp only [nsStep]
    apply ih
    intro k hk
    rw [List.mem_filter] at hk
    obtain ⟨hka, hkf⟩ := hk
    obtain ⟨hkU, hkK, hkS⟩ := hacc k hka
    refine ⟨hkU, hkK, ?_⟩
    have hnotfound : k ∉ (U.filter (fun k => shard k = sid)).filter
        (fun k => k ∈ known) := of_decide_eq_true hkf
    rcases List.mem_cons.mp hkS with heq | hmem
    · exfalso
      apply hnotfound
      rw [List.mem_filter, List.mem_filter]
      refine ⟨⟨hkU, ?_⟩, ?_⟩
      · simpa using heq
      · simpa using hkK
    · exact hmem

/-- Claim C4: for every known-station set, shard function and supplied key
set, the novelty count returned by `new_stations` never exceeds the number
of distinct keys supplied, equals zero when every supplied key already
exists in storage, and equals zero for an empty key set while issuing zero
existence queries (the second component counts the per-shard queries). -/
theorem new_stations_bounds (known : List Int) (shard : Int → Nat)
    (keys : List Int) :
    ((new_stations known shard keys).1 ≤ keys.dedup.length) ∧
    ((∀ k ∈ keys, k ∈ known) → (new_stations known shard keys).1 = 0) ∧
    (new_stations known shard [] = (0, 0)) := by
  refine ⟨?_, ?_, rfl⟩
  · by_cases h : keys.length = 0
    · simp only [new_stations, if_pos h]
      exact Nat.zero_le _
    · simp only [new_stations, if_neg h]
      exact nsFold_length_le known shard keys.dedup _ _ _
  · intro hall
    by_cases h : keys.length = 0
    · simp only [new_stations, if_pos h]
    · simp only [new_stations, if_neg h]
      rw [nsFold_all_known known shard keys.dedup
        ((keys.dedup.map shard).dedup) keys.dedup 0 ?_]
      · rfl
      · intro k hk
        exact ⟨hk, hall k (List.mem_dedup.mp hk),
          List.mem_dedup.mpr (List.mem_map_of_mem shard hk)⟩

/-- Witness for C4: a single already-known key yields novelty count 0. -/
theorem new_stations_bounds_witness :
    (new_stations [5] (fun _ => 0) [5]).1 = 0 :=
  (new_stations_bounds [5] (fun _ => 0) [5]).2.1 (by decide)

/-! ## User resolution (claim C6) -/

/-- Claim C6: `process_user` resolves a nickname to a user id if and only
if its length is between 2 and 128 characters inclusive; a valid unseen
nickname creates a user row and yields the fresh id, a valid known
nickname reuses the first matching row's id; `"ab"` resolves while `"a"`
and a 129-character string do not. -/
theorem process_user_resolution (users : List (Nat × String))
    (nextId : Nat) (s : String) :
    ((process_user users nextId (some s)).1.isSome = true ↔
      2 ≤ s.length ∧ s.length ≤ 128) ∧
    ((process_user users nextId none).1 = none) ∧
    (2 ≤ s.length → s.length ≤ 128 →
      users.find? (fun u => u.2 == s) = none →
      process_user users nextId (some s) =
        (some nextId, users ++ [(nextId, s)], nextId + 1)) ∧
    (∀ u, 2 ≤ s.length → s.length ≤ 128 →
      users.find? (fun u' => u'.2 == s) = some u →
      process_user users nextId (some s) = (some u.1, users, nextId)) ∧
    ((process_user [] 0 (some "a")).1 = none) ∧
    ((process_user [] 0 (some "ab")).1 = some 0) ∧
    ((process_user [] 0
        (some (String.mk (List.replicate 129 'a')))).1 = none) := by
  refine ⟨?_, rfl, ?_, ?_, by decide, by decide, ?_⟩
  · simp only [process_user]
    by_cases h2 : 2 ≤ s.length ∧ s.length ≤ 128
    · have hc : s.length ≠ 0 ∧ 2 ≤ s.length ∧ s.length ≤ 128 :=
        ⟨by omega, h2.1, h2.2⟩
      rw [if_pos hc]
      cases hf : users.find? (fun u => u.2 == s) <;> simp [h2]
    · have hc : ¬ (s.length ≠ 0 ∧ 2 ≤ s.length ∧ s.length ≤ 128) := by
        intro h
        exact h2 ⟨h.2.1, h.2.2⟩
      rw [if_neg hc]
      simp [h2]
  · intro hlo hhi hf
    simp only [process_user]
    rw [if_pos ⟨by omega, hlo, hhi⟩, hf]
  · intro u hlo hhi hf
    simp only [process_user]
    rw [if_pos ⟨by omega, hlo, hhi⟩, hf]
  · have hlen : (String.mk (List.replicate 129 'a')).length = 129 := by
      simp [String.length]
    simp only [process_user]
    rw [if_neg (by rw [hlen]; omega)]

/-- Witness for C6: a fresh 2-character nickname creates a user row and
resolves to the fresh id. -/
theorem process_user_resolution_witness :
    process_user [] 7 (some "ab") = (some 7, [(7, "ab")], 8) :=
  (process_user_resolution [] 7 "ab").2.2.1 (by decide) (by decide) rfl

/-! ## Stats emission (claim C8) -/

theorem mem_ite_singleton {α : Type} (c : Prop) [Decidable c] (x a : α) :
    x ∈ (if c then [a] else []) ↔ c ∧ x = a := by
  split
  · case isTrue h => simp [h]
  · case isFalse h => simp [h]

theorem mem_emit_stats (r m : Nat) (oc : ObsCounts) (k : Option ApiKey)
    (mt : Metric) :
    mt ∈ emit_stats r m oc k ↔
      (0 < r ∧ mt = ⟨"data.report.upload", r, apiTag k⟩) ∨
      (0 < m ∧ mt = ⟨"data.report.drop", m,
        Tag.reasonMalformed :: apiTag k⟩) ∨
      (0 < oc.blue_upload ∧ mt = ⟨"data.observation.upload", oc.blue_upload,
        Tag.type "blue" :: apiTag k⟩) ∨
      (0 < oc.blue_drop ∧ mt = ⟨"data.observation.drop", oc.blue_drop,
        Tag.type "blue" :: Tag.reasonMalformed :: apiTag k⟩) ∨
      (0 < oc.cell_upload ∧ mt = ⟨"data.observation.upload", oc.cell_upload,
        Tag.type "cell" :: apiTag k⟩) ∨
      (0 < oc.cell_drop ∧ mt = ⟨"data.observation.drop", oc.cell_drop,
        Tag.type "cell" :: Tag.reasonMalformed :: apiTag k⟩) ∨
      (0 < oc.wifi_upload ∧ mt = ⟨"data.observation.upload", oc.wifi_upload,
        Tag.type "wifi" :: apiTag k⟩) ∨
      (0 < oc.wifi_drop ∧ mt = ⟨"data.observation.drop", oc.wifi_drop,
        Tag.type "wifi" :: Tag.reasonMalformed :: apiTag k⟩) := by
  simp [emit_stats, obsMetrics, mem_ite_singleton, List.mem_append,
    or_assoc]

/-- Claim C8: `emit_stats` emits the accepted-report counter exactly when
the report count is positive, the malformed-report counter (tagged
`reason:malformed`) exactly when the malformed count is positive, and for
each technology and action a `type:<technology>`-tagged counter exactly
when that count is positive; `reason:malformed` is carried exactly by the
drop/malformed counters; and the API-key tag is carried by every emitted
counter exactly when an api key is present with its `should_log('submit')`
check passing. -/
theorem emit_stats_spec (r m : Nat) (oc : ObsCounts) (k : Option ApiKey) :
    ((⟨"data.report.upload", r, apiTag k⟩ : Metric) ∈ emit_stats r m oc k ↔
      0 < r) ∧
    ((⟨"data.report.drop", m, Tag.reasonMalformed :: apiTag k⟩ : Metric) ∈
        emit_stats r m oc k ↔ 0 < m) ∧
    ((⟨"data.observation.upload", oc.blue_upload,
        Tag.type "blue" :: apiTag k⟩ : Metric) ∈ emit_stats r m oc k ↔
      0 < oc.blue_upload) ∧
    ((⟨"data.observation.drop", oc.blue_drop,
        Tag.type "blue" :: Tag.reasonMalformed :: apiTag k⟩ : Metric) ∈
        emit_stats r m oc k ↔ 0 < oc.blue_drop) ∧
    ((⟨"data.observation.upload", oc.cell_upload,
        Tag.type "cell" :: apiTag k⟩ : Metric) ∈ emit_stats r m oc k ↔
      0 < oc.cell_upload) ∧
    ((⟨"data.observation.drop", oc.cell_drop,
        Tag.type "cell" :: Tag.reasonMalformed :: apiTag k⟩ : Metric) ∈
        emit_stats r m oc k ↔ 0 < oc.cell_drop) ∧
    ((⟨"data.observation.upload", oc.wifi_upload,
        Tag.type "wifi" :: apiTag k⟩ : Metric) ∈ emit_stats r m oc k ↔
      0 < oc.wifi_upload) ∧
    ((⟨"data.observation.drop", oc.wifi_drop,
        Tag.type "wifi" :: Tag.reasonMalformed :: apiTag k⟩ : Metric) ∈
        emit_stats r m oc k ↔ 0 < oc.wifi_drop) ∧
    (∀ mt ∈ emit_stats r m oc k,
      (mt.name = "data.report.drop" ∨ mt.name = "data.observation.drop") →
        Tag.reasonMalformed ∈ mt.tags) ∧
    (∀ mt ∈ emit_stats r m oc k,
      (mt.name = "data.report.upload" ∨
        mt.name = "data.observation.upload") →
        Tag.reasonMalformed ∉ mt.tags) ∧
    (∀ mt ∈ emit_stats r m oc k, ∀ s : String,
      Tag.key s ∈ mt.tags ↔
        ∃ ak, k = some ak ∧ ak.log_submit = true ∧ s = ak.valid_key) := by
  have hkey : ∀ s : String, Tag.key s ∈ apiTag k ↔
      ∃ ak, k = some ak ∧ ak.log_submit = true ∧ s = ak.valid_key := by
    intro s
    cases k with
    | none => simp [apiTag]
    | some ak =>
      by_cases hl : ak.log_submit <;> simp [apiTag, hl]
  have hrm : Tag.reasonMalformed ∉ apiTag k := by
    cases k with
    | none => simp [apiTag]
    | some ak => by_cases hl : ak.log_submit <;> simp [apiTag, hl]
  refine ⟨?_, ?_, ?_, ?_, ?_, ?_, ?_, ?_, ?_, ?_, ?_⟩
  · rw [mem_emit_stats]
    simp [Metric.mk.injEq]
  · rw [mem_emit_stats]
    simp [Metric.mk.injEq]
  · rw [mem_emit_stats]
    simp [Metric.mk.injEq]
  · rw [mem_emit_stats]
    simp [Metric.mk.injEq]
  · rw [mem_emit_stats]
    simp [Metric.mk.injEq]
  · rw [mem_emit_stats]
    simp [Metric.mk.injEq]
  · rw [mem_emit_stats]
    simp [Metric.mk.injEq]
  · rw [mem_emit_stats]
    simp [Metric.mk.injEq]
  · intro mt hmt hname
    rw [mem_emit_stats] at hmt
    rcases hmt with h | h | h | h | h | h | h | h <;>
      obtain ⟨-, rfl⟩ := h <;> simp_all
  · intro mt hmt hname
    rw [mem_emit_stats] at hmt
    rcases hmt with h | h | h | h | h | h | h | h <;>
      obtain ⟨-, rfl⟩ := h <;> simp_all [hrm]
  · intro mt hmt s
    rw [mem_emit_stats] at hmt
    rcases hmt with h | h | h | h | h | h | h | h <;>
      obtain ⟨-, rfl⟩ := h <;> simp [hkey s]

/-- Witness for C8: with one report, one malformed report and no api key,
the accepted-report counter is emitted. -/
theorem emit_stats_spec_witness :
    (⟨"data.report.upload", 1, apiTag none⟩ : Metric) ∈
      emit_stats 1 1 ⟨1, 1, 1, 1, 1, 1⟩ none :=
  (emit_stats_spec 1 1 ⟨1, 1, 1, 1, 1, 1⟩ none).1.mpr (by decide)

/-! ## Enqueue fan-out decomposition (claims C3, C5) -/

theorem mem_shardOps (mk : Nat → QueueId) (shard : Int → Nat)
    (obs : List Observation) (op : EnqueueOp) (h : op ∈ shardOps mk shard obs) :
    op.viaPipe = true ∧ ∃ s c, op = ⟨mk s, Payload.obsBatch c, true, true⟩ := by
  rw [shardOps] at h
  split at h
  · cases h
  · obtain ⟨sc, hsc, rfl⟩ := List.mem_map.mp h
    exact ⟨rfl, sc.1, sc.2, rfl⟩

theorem mem_process_datamap (env : Env) (positions : List (Int × Int))
    (op : EnqueueOp) (h : op ∈ process_datamap env positions) :
    op.viaPipe = true ∧
      ∃ s c, op = ⟨QueueId.datamap s, Payload.grids c, false, true⟩ := by
  rw [process_datamap] at h
  split at h
  · cases h
  · obtain ⟨sv, hsv, rfl⟩ := List.mem_map.mp h
    exact ⟨rfl, sv.1, sv.2.length, rfl⟩

theorem mem_scoreOps (x : Option (List ScoreDelta)) (op : EnqueueOp)
    (h : op ∈ scoreOps x) :
    op.viaPipe = false ∧
      ∃ ds, x = some ds ∧
        op = ⟨QueueId.score, Payload.scores ds, true, false⟩ := by
  cases x with
  | none => cases h
  | some ds =>
    rcases List.mem_cons.mp h with rfl | h'
    · exact ⟨rfl, ds, rfl, rfl⟩
    · cases h'

theorem mem_process_reports_ops (env : Env) (reports : List FormattedReport)
    (api_key : Option ApiKey) (userid : Option Nat) (op : EnqueueOp)
    (h : op ∈ (process_reports env reports api_key userid).1) :
    (op.viaPipe = true ∧
      ((∃ s, op.queue = QueueId.blue s) ∨ (∃ s, op.queue = QueueId.cell s) ∨
        (∃ s, op.queue = QueueId.wifi s) ∨
        (∃ s, op.queue = QueueId.datamap s))) ∨
    (op.queue = QueueId.score ∧ op.viaPipe = false ∧
      ∃ ds, process_score userid (batchState env reports).positions
          (newStationCounts env (batchState env reports)) = some ds ∧
        op = ⟨QueueId.score, Payload.scores ds, true, false⟩) := by
  simp only [process_reports, List.mem_append] at h
  rcases h with (((h | h) | h) | h) | h
  · obtain ⟨hp, s, c, rfl⟩ := mem_shardOps _ _ _ _ h
    exact Or.inl ⟨rfl, Or.inl ⟨s, rfl⟩⟩
  · obtain ⟨hp, s, c, rfl⟩ := mem_shardOps _ _ _ _ h
    exact Or.inl ⟨rfl, Or.inr (Or.inl ⟨s, rfl⟩)⟩
  · obtain ⟨hp, s, c, rfl⟩ := mem_shardOps _ _ _ _ h
    exact Or.inl ⟨rfl, Or.inr (Or.inr (Or.inl ⟨s, rfl⟩))⟩
  · obtain ⟨hp, s, c, rfl⟩ := mem_process_datamap _ _ _ h
    exact Or.inl ⟨rfl, Or.inr (Or.inr (Or.inr ⟨s, rfl⟩))⟩
  · obtain ⟨hp, ds, hds, rfl⟩ := mem_scoreOps _ _ h
    exact Or.inr ⟨rfl, rfl, ds, hds, rfl⟩

/-- Counterexample to claim C5: processing a concrete batch (one report
with one wifi observation and a resolved user) issues an enqueue that is
NOT on the shared pipe — the score-queue enqueue. -/
theorem score_enqueue_not_on_pipe_cx :
    ¬ (∀ op ∈ (process_reports cenv [wifiReport] none (some 1)).1,
        op.viaPipe = true) := by
  decide

/-- Claim C5 (amended): every enqueue issued while processing a batch is
issued against the shared explicitly-flushed pipe EXCEPT the score-queue
enqueue, which is issued directly on the score queue without the pipe. -/
theorem enqueue_on_pipe_iff_not_score (env : Env)
    (reports : List FormattedReport) (api_key : Option ApiKey)
    (userid : Option Nat) (op : EnqueueOp)
    (h : op ∈ (process_reports env reports api_key userid).1) :
    op.viaPipe = false ↔ op.queue = QueueId.score := by
  rcases mem_process_reports_ops env reports api_key userid op h with
    ⟨hp, hq⟩ | ⟨hq, hp, -⟩
  · rw [hp]
    constructor
    · intro hfalse
      cases hfalse
    · intro hs
      rcases hq with ⟨s, hq⟩ | ⟨s, hq⟩ | ⟨s, hq⟩ | ⟨s, hq⟩ <;>
        rw [hq] at hs <;> cases hs
  · rw [hp, hq]
    simp

/-- Witness for the amended C5: the score enqueue of a concrete batch. -/
theorem enqueue_on_pipe_iff_not_score_witness :
    ((⟨QueueId.score,
        Payload.scores [⟨1, ScoreKey.location, 1⟩, ⟨1, ScoreKey.new_wifi, 1⟩],
        true, false⟩ : EnqueueOp).viaPipe = false ↔
      (⟨QueueId.score,
        Payload.scores [⟨1, ScoreKey.location, 1⟩, ⟨1, ScoreKey.new_wifi, 1⟩],
        true, false⟩ : EnqueueOp).queue = QueueId.score) :=
  enqueue_on_pipe_iff_not_score cenv [wifiReport] none (some 1) _ (by decide)

/-! ## Score deltas (claim C3) -/

/-- Counterexample to claim C3: with one distinct position and new-station
counts `{blue: 1, cell: 0, wifi: 0}`, the code enqueues a single delta (the
location delta) — not `1 + 1` deltas as "one delta per technology's
new-station count, emitted when strictly positive" predicts, because
bluetooth novelty has no score key and is never scored. -/
theorem process_score_skips_blue_cx :
    process_score (some 1) [(0, 0)] ⟨1, 0, 0⟩ =
      some [⟨1, ScoreKey.location, 1⟩] ∧
    ¬ ((process_score (some 1) [(0, 0)] ⟨1, 0, 0⟩).elim 0 List.length =
        1 + numPositive ⟨1, 0, 0⟩) := by
  decide

/-- Claim C3 (amended): with no resolved user id no score deltas are
enqueued at all (also at the pipeline level no score-queue enqueue is
issued); with a resolved user id and at least one accepted position the
score step enqueues, as one list onto the single score queue, exactly one
location delta valued at the number of distinct positions plus one delta
each for the cell and wifi new-station counts — emitted only when the
count is strictly positive; bluetooth novelty is never scored. -/
theorem process_score_spec (uid : Nat) (positions : List (Int × Int))
    (nsc : TechCounts) :
    (process_score none positions nsc = none) ∧
    (positions = [] → process_score (some uid) positions nsc = none) ∧
    (positions ≠ [] → ∃ rest,
      process_score (some uid) positions nsc =
        some (⟨uid, ScoreKey.location, positions.length⟩ :: rest) ∧
      (∀ d ∈ rest, d.userid = uid ∧ d.key ≠ ScoreKey.location) ∧
      ((⟨uid, ScoreKey.new_cell, nsc.cell⟩ : ScoreDelta) ∈ rest ↔
        0 < nsc.cell) ∧
      ((⟨uid, ScoreKey.new_wifi, nsc.wifi⟩ : ScoreDelta) ∈ rest ↔
        0 < nsc.wifi) ∧
      (∀ d ∈ rest, d.key = ScoreKey.new_cell ∨ d.key = ScoreKey.new_wifi)) ∧
    (∀ (env : Env) (reports : List FormattedReport)
        (api_key : Option ApiKey),
      ∀ op ∈ (process_reports env reports api_key none).1,
        op.queue ≠ QueueId.score) ∧
    (∀ (env : Env) (reports : List FormattedReport)
        (api_key : Option ApiKey) (userid : Option Nat),
      ((process_reports env reports api_key userid).1.countP
          (fun op => op.queue == QueueId.score)) ≤ 1) := by
  refine ⟨rfl, ?_, ?_, ?_, ?_⟩
  · intro hpos
    simp [process_score, hpos]
  · intro hpos
    refine ⟨(if 0 < nsc.cell then [⟨uid, ScoreKey.new_cell, nsc.cell⟩] else [])
      ++ (if 0 < nsc.wifi then [⟨uid, ScoreKey.new_wifi, nsc.wifi⟩] else []),
      ?_, ?_, ?_, ?_, ?_⟩
    · have hlen : positions.length ≠ 0 := by
        simpa using hpos
      simp [process_score, hlen]
    · intro d hd
      rcases List.mem_append.mp hd with hd | hd <;>
        rw [mem_ite_singleton] at hd <;>
        obtain ⟨-, rfl⟩ := hd <;> exact ⟨rfl, by simp⟩
    · by_cases hc : 0 < nsc.cell <;>
        by_cases hw : 0 < nsc.wifi <;>
        simp [hc, hw, ScoreDelta.mk.injEq]
    · by_cases hc : 0 < nsc.cell <;>
        by_cases hw : 0 < nsc.wifi <;>
        simp [hc, hw, ScoreDelta.mk.injEq]
    · intro d hd
      rcases List.mem_append.mp hd with hd | hd <;>
        rw [mem_ite_singleton] at hd <;>
        obtain ⟨-, rfl⟩ := hd
      · exact Or.inl rfl
      · exact Or.inr rfl
  · intro env reports api_key op hop hq
    rcases mem_process_reports_ops env reports api_key none op hop with
      ⟨-, hqs⟩ | ⟨-, -, ds, hds, -⟩
    · rcases hqs with ⟨s, h'⟩ | ⟨s, h'⟩ | ⟨s, h'⟩ | ⟨s, h'⟩ <;>
        rw [h'] at hq <;> cases hq
    · rw [process_score] at hds
      cases hds
  · intro env reports api_key userid
    simp only [process_reports, List.countP_append]
    have hz : ∀ (mk : Nat → QueueId) (shard : Int → Nat)
        (obs : List Observation),
        (mk = QueueId.blue ∨ mk = QueueId.cell ∨ mk = QueueId.wifi) →
        (shardOps mk shard obs).countP
          (fun op => op.queue == QueueId.score) = 0 := by
      intro mk shard obs hmk
      rw [List.countP_eq_zero]
      intro op hop
      obtain ⟨-, s, c, rfl⟩ := mem_shardOps mk shard obs op hop
      rcases hmk with rfl | rfl | rfl <;> simp
    have hd : (process_datamap env (batchState env reports).positions).countP
        (fun op => op.queue == QueueId.score) = 0 := by
      rw [List.countP_eq_zero]
      intro op hop
      obtain ⟨-, s, c, rfl⟩ := mem_process_datamap _ _ op hop
      simp
    have hs : (scoreOps (process_score userid
        (batchState env reports).positions
        (newStationCounts env (batchState env reports)))).countP
          (fun op => op.queue == QueueId.score) ≤ 1 := by
      cases process_score userid (batchState env reports).positions
        (newStationCounts env (batchState env reports)) with
      | none => simp [scoreOps]
      | some ds => simp [scoreOps]
    rw [hz QueueId.blue _ _ (Or.inl rfl), hz QueueId.cell _ _ (Or.inr (Or.inl rfl)),
      hz QueueId.wifi _ _ (Or.inr (Or.inr rfl)), hd]
    simpa using hs

/-- Witness for the amended C3: a concrete nonempty position list with
positive wifi novelty yields the location delta followed by the wifi
delta. -/
theorem process_score_spec_witness :
    (process_score (some 1) [(0, 0)] ⟨0, 0, 2⟩).isSome = true := by
  obtain ⟨rest, hrest, -, -, -, -⟩ :=
    (process_score_spec 1 [(0, 0)] ⟨0, 0, 2⟩).2.2.1 (by decide)
  rw [hrest]
  rfl

/-! ## Beacon-less items in `send` (claim C2) -/

theorem format_report_beaconless (item : RawItem)
    (hb : item.bluetoothBeacons = []) (hc : item.cellTowers = [])
    (hw : item.wifiAccessPoints = []) :
    format_report item = none := by
  have ht : transform item = none := by
    simp [transform, hb, hc, hw]
  rw [format_report, ht]

/-- Counterexample to claim C2: a payload with one item whose report has a
valid position but empty beacon lists produces NO metrics at all — in
particular the malformed-report counter (`data.report.drop`) is not
incremented — and no enqueues: the item is silently dropped by `send`
before grouping, so `process_reports` (which counts malformed reports)
never sees it. -/
theorem send_beaconless_not_counted_cx :
    send cenv [("k1", ⟨"k1", true⟩)] [] 0 [beaconlessItem] = ([], []) ∧
    ¬ ((send cenv [("k1", ⟨"k1", true⟩)] [] 0 [beaconlessItem]).2.any
        (fun mt => mt.name == "data.report.drop") = true) := by
  decide

/-- Claim C2 (amended): an item whose report has empty (or absent)
`bluetoothBeacons`, `cellTowers` and `wifiAccessPoints` lists is dropped by
`send` during report formatting, before grouping: the payload is processed
exactly as if the item were not there, so zero observations, zero heatmap
cells and zero score deltas are enqueued for it and no counter — including
the malformed-report counter — is incremented for it. -/
theorem send_skips_beaconless_item (env : Env)
    (apiTable : List (String × ApiKey)) (users : List (Nat × String))
    (nextId : Nat) (p1 p2 : List UploadItem) (item : UploadItem)
    (hb : item.report.bluetoothBeacons = [])
    (hc : item.report.cellTowers = [])
    (hw : item.report.wifiAccessPoints = []) :
    send env apiTable users nextId (p1 ++ item :: p2) =
      send env apiTable users nextId (p1 ++ p2) := by
  have hfr : format_report item.report = none :=
    format_report_beaconless item.report hb hc hw
  have hgroups : sendGroups (p1 ++ item :: p2) = sendGroups (p1 ++ p2) := by
    rw [sendGroups, sendGroups, List.foldl_append, List.foldl_append,
      List.foldl_cons]
    congr 1
    simp [hfr]
  simp only [send, hgroups]

/-- Witness for the amended C2 at the concrete beacon-less item. -/
theorem send_skips_beaconless_item_witness :
    send cenv [] [] 0 ([] ++ beaconlessItem :: []) =
      send cenv [] [] 0 ([] ++ []) :=
  send_skips_beaconless_item cenv [] [] 0 [] [] beaconlessItem rfl rfl rfl

/-- Claim C9: an item whose `timestamp` field is present with value `0` is
treated by both the schema transform and report formatting exactly as if
the timestamp were absent: no `timestamp` key is carried through and no
`time` field is produced, because the guards test truthiness (`if
timestamp:`) rather than presence. -/
theorem timestamp_zero_treated_as_absent (item : RawItem)
    (h : item.timestamp = some 0) :
    transform item = transform (item.withTimestamp none) ∧
    format_report item = format_report (item.withTimestamp none) ∧
    (∀ rep, format_report item = some rep → rep.time = none) := by
  have hts : (match item.timestamp with
      | some t => if t = 0 then none else some t
      | none => none) = (none : Option Int) := by
    rw [h]; simp
  refine ⟨?_, ?_, ?_⟩
  · simp only [transform, RawItem.withTimestamp, hts]
  · simp only [format_report, transform, RawItem.withTimestamp, hts]
  · intro rep hrep
    simp only [format_report, transform, hts] at hrep
    by_cases hc :
        ((item.bluetoothBeacons.map (fun e => map_dict e blue_map)).filter
            (fun v => v ≠ []) ≠ [] ∨
          (item.cellTowers.map (fun e => map_dict e cell_map)).filter
            (fun v => v ≠ []) ≠ [] ∨
          (item.wifiAccessPoints.map (fun e => map_dict e wifi_map)).filter
            (fun v => v ≠ []) ≠ [])
    · rw [if_pos hc] at hrep
      cases hrep
      rfl
    · rw [if_neg hc] at hrep
      cases hrep

/-- Witness for C9 at a concrete item. -/
theorem timestamp_zero_treated_as_absent_witness :
    transform ⟨some [("latitude", 1), ("longitude", 2)], some 0,
        [[("macAddress", 3)]], [], []⟩ =
      transform (RawItem.withTimestamp
        ⟨some [("latitude", 1), ("longitude", 2)], some 0,
          [[("macAddress", 3)]], [], []⟩ none) :=
  (timestamp_zero_treated_as_absent
    ⟨some [("latitude", 1), ("longitude", 2)], some 0,
      [[("macAddress", 3)]], [], []⟩ rfl).1

end Ichnaea
